import Mathlib

/-
Verification of the WebCrawler repository (main.go) against its
natural-language specification.

The embedding below translates the crawler's code into Lean:
 - `goParse` models the behavior of net/url.Parse as used by NewCrawler and
   crawl (black-box collaborator per the spec): it errors only on ASCII
   control characters and accepts both absolute URLs and relative references.
 - `crawl` is a sequential (depth-first scheduling of spawned goroutines)
   model of Crawler.crawl.  The source guard `if depth > c.maxDepth` is
   rendered by the fuel argument with fuel = maxDepth + 1 - depth: a call
   with fuel = 0 is exactly a call with depth > maxDepth.  Fetching
   (http.Get), body parsing (goquery) and href resolution (parsedURL.Parse)
   are black-box collaborators and appear as function parameters.
 - Wall-clock fields (CrawledAt, ResponseTime) come from the environment
   clock; the model fills them with 0, no claim depends on them.
 - The race model (TaskPc, stepTask, runSchedule) embeds the statement
   order of Crawler.crawl lines 94-110 for one contested URL and
   two concurrent tasks driven by an explicit schedule.
-/

deriving instance DecidableEq for Except

/-- Result of net/url.Parse on a URL string: scheme, host, and the raw
string (whose rendering via URL.String round-trips for our purposes). -/
structure GoURL where
  scheme : String
  host : String
  raw : String
deriving DecidableEq

/-- strings.TrimSpace, modelled on the character list so that concrete
runs evaluate inside the kernel. -/
def goTrimSpace (s : String) : String :=
  String.mk (((s.data.dropWhile Char.isWhitespace).reverse.dropWhile
    Char.isWhitespace).reverse)

/-- strings.HasPrefix, modelled on the character list. -/
def goHasPrefix (s p : String) : Bool :=
  p.data.isPrefixOf s.data

/-- Split at the first occurrence of pat: the characters before it and the
characters after it, or none when pat does not occur. -/
def breakOnSeq (pat : List Char) : List Char → Option (List Char × List Char)
  | [] => none
  | ch :: rest =>
    if pat.isPrefixOf (ch :: rest) then some ([], (ch :: rest).drop pat.length)
    else
      match breakOnSeq pat rest with
      | none => none
      | some pr => some (ch :: pr.1, pr.2)

/-- Modelled net/url.Parse: Go's parser fails only on ASCII control
characters; otherwise it accepts the input, extracting a scheme and host
when the "://" form is present and treating everything else as a relative
reference (empty scheme and host). -/
def goParse (s : String) : Except String GoURL :=
  if s.data.any (fun ch => ch.toNat < 32 || ch.toNat == 127) then
    Except.error ("net/url: invalid control character in URL")
  else
    match breakOnSeq ("://").data s.data with
    | some pr =>
        Except.ok { scheme := String.mk pr.1,
                    host := String.mk (pr.2.takeWhile (fun ch => ch != '/')),
                    raw := s }
    | none => Except.ok { scheme := "", host := "", raw := s }

/-- Go's URL.IsAbs: a URL is absolute iff its scheme is nonempty. -/
def GoURL.isAbs (u : GoURL) : Bool := u.scheme != ""

/-- An absolute URL as produced by the black-box resolver
parsedURL.Parse(href): its Host component and its exact String() rendering
(the string the crawler uses as dedup key and fetch target). -/
structure AbsURL where
  host : String
  full : String
deriving DecidableEq

/-- Outcome of the black-box fetch+parse collaborators for one URL:
a network error, or a status code together with the goquery parse of the
body (none = parse failure; some (title, hrefs) = title text and the href
attributes of anchor elements in document order). -/
inductive FetchOutcome where
  | netError : FetchOutcome
  | response : Nat → Option (String × List String) → FetchOutcome
deriving DecidableEq

/-- The crawler configuration: parsed base URL and maximum depth
(fields baseURL and maxDepth of struct Crawler in main.go). -/
structure Crawler where
  base : GoURL
  maxDepth : Nat
deriving DecidableEq

/-- Crawler.isSameDomain: the candidate's host equals the base URL's host. -/
def Crawler.isSameDomain (c : Crawler) (u : AbsURL) : Bool :=
  u.host == c.base.host

/-- NewCrawler's validation of the seed: url.Parse only; on parse error it
fails with the descriptive "invalid base URL" error, otherwise the crawler
is constructed (no absoluteness check appears in the source). -/
def NewCrawler (baseURL : String) (maxDepth : Nat) : Except String Crawler :=
  match goParse baseURL with
  | Except.error e => Except.error (("invalid base URL: ") ++ e)
  | Except.ok u => Except.ok { base := u, maxDepth := maxDepth }

/-- PageData of main.go (CrawledAt and ResponseTime as naturals from the
environment clock). -/
structure PageData where
  url : String
  title : String
  links : List String
  depth : Nat
  crawledAt : Nat
  responseTime : Nat
  statusCode : Nat
deriving DecidableEq

/-- The shared mutable state of a run: the visited set (map from URL string
to claimed marker, rendered as the list of keys) and the aggregated pages. -/
structure CrawlState where
  visited : List String
  pages : List PageData
deriving DecidableEq

/-- Crawler.isVisited: membership of the exact URL string in the set. -/
def CrawlState.isVisited (s : CrawlState) (url : String) : Bool :=
  s.visited.contains url

/-- Crawler.markVisited: insert the URL string into the visited set. -/
def CrawlState.markVisited (s : CrawlState) (url : String) : CrawlState :=
  { s with visited := url :: s.visited }

/-- Crawler.addPageData: append one record to the report's pages. -/
def CrawlState.addPageData (s : CrawlState) (d : PageData) : CrawlState :=
  { s with pages := s.pages ++ [d] }

/-- Body of the doc.Find("a").Each callback for one href: trim, skip empty
and fragment-only hrefs, resolve against the page URL (skip silently on
failure), and skip out-of-scope hosts; otherwise yield the resolved URL. -/
def processHref (c : Crawler) (resolve1 : String → Option AbsURL) (href0 : String) :
    Option AbsURL :=
  let href := goTrimSpace href0
  if href == "" || goHasPrefix href ("#") then none
  else
    match resolve1 href with
    | none => none
    | some u => if c.isSameDomain u then some u else none

/-- The link-collection loop over all hrefs of a page: accumulates the
links list and, for each resolved in-scope URL not yet visited, runs the
spawned child task (the `go c.crawl(nextURL, depth+1, wg)` closure,
passed in as `spawn`). -/
def processHrefs (c : Crawler) (resolve1 : String → Option AbsURL)
    (spawn : String → CrawlState → CrawlState) :
    List String → CrawlState → List String × CrawlState
  | [], s => ([], s)
  | href0 :: rest, s =>
    match processHref c resolve1 href0 with
    | none => processHrefs c resolve1 spawn rest s
    | some u =>
      let nextURL := u.full
      let s1 := if s.isVisited nextURL then s else spawn nextURL s
      let (links, s2) := processHrefs c resolve1 spawn rest s1
      (nextURL :: links, s2)

/-- Crawler.crawl, sequentialized (children run depth-first at their spawn
point).  The fuel argument renders the `depth > c.maxDepth` guard:
fuel = maxDepth + 1 - depth throughout a run, so fuel = 0 is exactly
depth > maxDepth and the call is a no-op.  Statement order follows the
source: visited check, rate-limiter tick (timing only), mark visited,
url.Parse of the page URL, fetch, status check, body parse, link loop,
record append. -/
def crawl (c : Crawler) (resolve : GoURL → String → Option AbsURL)
    (web : String → FetchOutcome) (fuel : Nat) (pageURL : String) (depth : Nat)
    (s : CrawlState) : CrawlState :=
  match fuel with
  | 0 => s
  | fuel' + 1 =>
    if s.isVisited pageURL then s
    else
      let s1 := s.markVisited pageURL
      match goParse pageURL with
      | Except.error _ => s1
      | Except.ok parsedURL =>
        match web pageURL with
        | FetchOutcome.netError => s1
        | FetchOutcome.response statusCode parsed =>
          if statusCode ≠ 200 then s1
          else
            match parsed with
            | none => s1
            | some (title, hrefs) =>
              let r := processHrefs c (resolve parsedURL)
                (fun nextURL st => crawl c resolve web fuel' nextURL (depth + 1) st)
                hrefs s1
              r.2.addPageData
                { url := pageURL, title := title, links := r.1, depth := depth,
                  crawledAt := 0, responseTime := 0, statusCode := statusCode }
termination_by structural fuel

/-- Crawler.Start: one task crawl(baseURL.String(), 0) on the empty state;
fuel = maxDepth + 1 matches depth 0. -/
def startCrawl (c : Crawler) (resolve : GoURL → String → Option AbsURL)
    (web : String → FetchOutcome) : CrawlState :=
  crawl c resolve web (c.maxDepth + 1) c.base.raw 0 { visited := [], pages := [] }

/-- A fetch outcome that makes the task return before building a record:
network error, non-200 status, or body parse failure. -/
def fetchFails : FetchOutcome → Bool
  | FetchOutcome.netError => true
  | FetchOutcome.response statusCode parsed => statusCode != 200 || parsed.isNone

/-- Tick period of the rate limiter in milliseconds, from NewCrawler line 55:
time.Duration(1000/requestsPerSecond) * time.Millisecond.  The float64
quotient 1000/requestsPerSecond is truncated toward zero by the conversion
to time.Duration; for positive quotients that truncation is the floor.
Rationals stand in for float64 (on the inputs considered here the two
round identically). -/
def tickPeriodMs (requestsPerSecond : ℚ) : ℤ :=
  Int.floor ((1000 : ℚ) / requestsPerSecond)

/-- CrawlResult of main.go, with timestamps as naturals from the
environment clock. -/
structure CrawlResult where
  baseURL : String
  maxDepth : Nat
  startTime : Nat
  endTime : Nat
  totalPages : Nat
  pages : List PageData
deriving DecidableEq

/-- Result value installed by NewCrawler: start time now, empty pages,
zero values elsewhere. -/
def initResult (baseURL : String) (maxDepth : Nat) (now : Nat) : CrawlResult :=
  { baseURL := baseURL, maxDepth := maxDepth, startTime := now,
    endTime := 0, totalPages := 0, pages := [] }

/-- Finalization step of Crawler.saveResults (lines 176-177): set the end
time to the current clock and the total to the length of the accumulated
pages.  (The subsequent file write is the black-box output sink.) -/
def saveResults (r : CrawlResult) (now : Nat) : CrawlResult :=
  { r with endTime := now, totalPages := r.pages.length }

/-- Program counter of one crawl task for a single contested URL, past the
depth guard: the statement order of Crawler.crawl lines 94-110
(isVisited check, receive from rateLimiter, markVisited, http.Get). -/
inductive TaskPc where
  | checkVisited : TaskPc
  | waitTick : TaskPc
  | markVisited : TaskPc
  | fetchPage : TaskPc
  | finished : TaskPc
deriving DecidableEq

/-- Shared state for the race model: the visited marker of the one
contested URL, the number of rate-limiter ticks consumed, and the number
of times the URL has been fetched. -/
structure RaceState where
  visited : Bool
  ticksConsumed : Nat
  fetches : Nat
deriving DecidableEq

/-- One step of one task, following crawl lines 94-110: an already-set
visited marker at the check makes the task return; otherwise the task
consumes a tick, then sets the marker, then fetches. -/
def stepTask (s : RaceState) (pc : TaskPc) : RaceState × TaskPc :=
  match pc with
  | TaskPc.checkVisited =>
      if s.visited then (s, TaskPc.finished) else (s, TaskPc.waitTick)
  | TaskPc.waitTick =>
      ({ s with ticksConsumed := s.ticksConsumed + 1 }, TaskPc.markVisited)
  | TaskPc.markVisited => ({ s with visited := true }, TaskPc.fetchPage)
  | TaskPc.fetchPage => ({ s with fetches := s.fetches + 1 }, TaskPc.finished)
  | TaskPc.finished => (s, TaskPc.finished)

/-- Two concurrent crawl tasks for the same URL: the shared state and each
task's program counter. -/
structure RaceSys where
  shared : RaceState
  pc0 : TaskPc
  pc1 : TaskPc
deriving DecidableEq

/-- Run one scheduler step: false advances task 0, true advances task 1. -/
def stepSys (sys : RaceSys) (pick : Bool) : RaceSys :=
  if pick then
    let r := stepTask sys.shared sys.pc1
    { sys with shared := r.1, pc1 := r.2 }
  else
    let r := stepTask sys.shared sys.pc0
    { sys with shared := r.1, pc0 := r.2 }

/-- Run the two tasks under an explicit interleaving schedule. -/
def runSchedule : List Bool → RaceSys → RaceSys
  | [], sys => sys
  | pick :: rest, sys => runSchedule rest (stepSys sys pick)

/-- Both tasks start at the visited check of a URL nobody has claimed. -/
def raceInit : RaceSys :=
  { shared := { visited := false, ticksConsumed := 0, fetches := 0 },
    pc0 := TaskPc.checkVisited, pc1 := TaskPc.checkVisited }

/-- Run a single task to completion (fuel-bounded; four steps suffice). -/
def runTask : Nat → RaceState → TaskPc → RaceState
  | 0, s, _ => s
  | n + 1, s, pc =>
    if pc = TaskPc.finished then s
    else
      let r := stepTask s pc
      runTask n r.1 r.2

/-- Trace of the statements a single task executes, in order. -/
def taskTrace : Nat → RaceState → TaskPc → List TaskPc
  | 0, _, _ => []
  | n + 1, s, pc =>
    if pc = TaskPc.finished then []
    else
      let r := stepTask s pc
      pc :: taskTrace n r.1 r.2

/-- Concrete base URL for the worked examples: host e.com, seed page /a. -/
def exBase : GoURL := { scheme := "http", host := "e.com", raw := "http://e.com/a" }

/-- Example crawler with maxDepth 3. -/
def cEx : Crawler := { base := exBase, maxDepth := 3 }

/-- Example crawler with maxDepth 0. -/
def cEx0 : Crawler := { base := exBase, maxDepth := 0 }

/-- Concrete resolver instance for the examples (the black-box
parsedURL.Parse collaborator evaluated on the hrefs that occur). -/
def resolveEx (_base : GoURL) (href : String) : Option AbsURL :=
  if href == "/a" then some { host := "e.com", full := "http://e.com/a" }
  else if href == "/b" then some { host := "e.com", full := "http://e.com/b" }
  else if href == "http://other.com/x" then
    some { host := "other.com", full := "http://other.com/x" }
  else if href == "/page?a=1" then
    some { host := "e.com", full := ("http://e.com/page?a=1") }
  else if href == "/page#sec" then
    some { host := "e.com", full := ("http://e.com/page#sec") }
  else none

/-- Cyclic two-page site: /a links to /b and /b links back to /a. -/
def webCyc (url : String) : FetchOutcome :=
  if url == "http://e.com/a" then FetchOutcome.response 200 (some ("A", ["/b"]))
  else if url == "http://e.com/b" then FetchOutcome.response 200 (some ("B", ["/a"]))
  else FetchOutcome.netError

/-- Site whose seed page links to an in-scope page and an out-of-scope one. -/
def webOut (url : String) : FetchOutcome :=
  if url == "http://e.com/a" then
    FetchOutcome.response 200 (some ("A", ["/b", "http://other.com/x"]))
  else if url == "http://e.com/b" then FetchOutcome.response 200 (some ("B", []))
  else FetchOutcome.netError

/-- Site whose seed page links to two URLs differing only in query string
or fragment. -/
def webQF (url : String) : FetchOutcome :=
  if url == "http://e.com/a" then
    FetchOutcome.response 200 (some ("A", ["/page?a=1", "/page#sec"]))
  else if url == "http://e.com/page?a=1" then
    FetchOutcome.response 200 (some ("Q1", []))
  else if url == "http://e.com/page#sec" then
    FetchOutcome.response 200 (some ("PS", []))
  else FetchOutcome.netError

/-- Fuel zero (depth past maxDepth) is a no-op. -/
theorem crawl_zero (c : Crawler) (resolve : GoURL → String → Option AbsURL)
    (web : String → FetchOutcome) (pageURL : String) (depth : Nat) (s : CrawlState) :
    crawl c resolve web 0 pageURL depth s = s := rfl

/-- A visited URL makes the task return with the state unchanged. -/
theorem crawl_visited (c : Crawler) (resolve : GoURL → String → Option AbsURL)
    (web : String → FetchOutcome) (fuel : Nat) (pageURL : String) (depth : Nat)
    (s : CrawlState) (h : s.isVisited pageURL = true) :
    crawl c resolve web fuel pageURL depth s = s := by
  cases fuel with
  | zero => rfl
  | succ fuel' => simp only [crawl, h, if_true]

/-- The links list collected by the href loop is exactly the in-scope
resolutions of the hrefs, in discovery order, independent of the crawl
state and of what the spawned children do. -/
theorem processHrefs_fst (c : Crawler) (resolve1 : String → Option AbsURL)
    (spawn : String → CrawlState → CrawlState) (hrefs : List String) :
    ∀ s : CrawlState, (processHrefs c resolve1 spawn hrefs s).1
      = hrefs.filterMap (fun h => Option.map AbsURL.full (processHref c resolve1 h)) := by
  induction hrefs with
  | nil => intro s; rfl
  | cons href0 rest ih =>
    intro s
    simp only [processHrefs, List.filterMap_cons]
    cases hp : processHref c resolve1 href0 with
    | none => simp only [Option.map_none', ih]
    | some u => simp only [Option.map_some', ih]

/-- Pages appended by the href loop: whatever invariant the spawned
children preserve on appended pages is preserved by the whole loop. -/
theorem processHrefs_pages (c : Crawler) (resolve1 : String → Option AbsURL)
    (spawn : String → CrawlState → CrawlState) (Q : PageData → Prop)
    (hspawn : ∀ u st, ∃ new, (spawn u st).pages = st.pages ++ new ∧ ∀ p ∈ new, Q p)
    (hrefs : List String) :
    ∀ s : CrawlState, ∃ new,
      (processHrefs c resolve1 spawn hrefs s).2.pages = s.pages ++ new
        ∧ ∀ p ∈ new, Q p := by
  induction hrefs with
  | nil => intro s; exact ⟨[], by simp only [processHrefs, List.append_nil], by simp⟩
  | cons href0 rest ih =>
    intro s
    simp only [processHrefs]
    cases hp : processHref c resolve1 href0 with
    | none => exact ih s
    | some u =>
      by_cases hv : s.isVisited u.full = true
      · simp only [hv, if_true]
        exact ih s
      · simp only [Bool.not_eq_true] at hv
        simp only [hv, Bool.false_eq_true, if_false]
        obtain ⟨new0, hps, hq0⟩ := hspawn u.full s
        obtain ⟨new1, hps1, hq1⟩ := ih (spawn u.full s)
        refine ⟨new0 ++ new1, ?_, ?_⟩
        · simp only [hps1, hps, List.append_assoc]
        · intro p hp
          rcases List.mem_append.mp hp with h0 | h1
          · exact hq0 p h0
          · exact hq1 p h1

/-- The visited set grows monotonically through the href loop whenever the
spawned children grow it monotonically. -/
theorem processHrefs_visited (c : Crawler) (resolve1 : String → Option AbsURL)
    (spawn : String → CrawlState → CrawlState)
    (hspawn : ∀ u st x, x ∈ st.visited → x ∈ (spawn u st).visited)
    (hrefs : List String) :
    ∀ (s : CrawlState) (x : String),
      x ∈ s.visited → x ∈ (processHrefs c resolve1 spawn hrefs s).2.visited := by
  induction hrefs with
  | nil => intro s x hx; exact hx
  | cons href0 rest ih =>
    intro s x hx
    simp only [processHrefs]
    cases hp : processHref c resolve1 href0 with
    | none => exact ih s x hx
    | some u =>
      by_cases hv : s.isVisited u.full = true
      · simp only [hv, if_true]
        exact ih s x hx
      · simp only [Bool.not_eq_true] at hv
        simp only [hv, Bool.false_eq_true, if_false]
        exact ih (spawn u.full s) x (hspawn u.full s x hx)

/-- When the spawned children do nothing (fuel exhausted), the href loop
leaves the state unchanged. -/
theorem processHrefs_state_id (c : Crawler) (resolve1 : String → Option AbsURL)
    (spawn : String → CrawlState → CrawlState)
    (hspawn : ∀ u st, spawn u st = st) (hrefs : List String) :
    ∀ s : CrawlState, (processHrefs c resolve1 spawn hrefs s).2 = s := by
  induction hrefs with
  | nil => intro s; rfl
  | cons href0 rest ih =>
    intro s
    simp only [processHrefs]
    cases hp : processHref c resolve1 href0 with
    | none => exact ih s
    | some u =>
      by_cases hv : s.isVisited u.full = true
      · simp only [hv, if_true]; exact ih s
      · simp only [Bool.not_eq_true] at hv
        simp only [hv, Bool.false_eq_true, if_false, hspawn]
        exact ih s

/-- Marking a URL visited leaves the pages untouched. -/
theorem markVisited_pages (s : CrawlState) (url : String) :
    (s.markVisited url).pages = s.pages := rfl

/-- Marking a URL visited pushes it onto the visited set. -/
theorem markVisited_visited (s : CrawlState) (url : String) :
    (s.markVisited url).visited = url :: s.visited := rfl

/-- Appending a record leaves the visited set untouched. -/
theorem addPageData_visited (s : CrawlState) (d : PageData) :
    (s.addPageData d).visited = s.visited := rfl

/-- Appending a record appends exactly that record to the pages. -/
theorem addPageData_pages (s : CrawlState) (d : PageData) :
    (s.addPageData d).pages = s.pages ++ [d] := rfl

/-- Unfolding of crawl at positive fuel (a call at depth ≤ maxDepth). -/
theorem crawl_succ (c : Crawler) (resolve : GoURL → String → Option AbsURL)
    (web : String → FetchOutcome) (fuel : Nat) (pageURL : String) (depth : Nat)
    (s : CrawlState) :
    crawl c resolve web (fuel + 1) pageURL depth s =
      (if s.isVisited pageURL then s
      else
        let s1 := s.markVisited pageURL
        match goParse pageURL with
        | Except.error _ => s1
        | Except.ok parsedURL =>
          match web pageURL with
          | FetchOutcome.netError => s1
          | FetchOutcome.response statusCode parsed =>
            if statusCode ≠ 200 then s1
            else
              match parsed with
              | none => s1
              | some (title, hrefs) =>
                let r := processHrefs c (resolve parsedURL)
                  (fun nextURL st => crawl c resolve web fuel nextURL (depth + 1) st)
                  hrefs s1
                r.2.addPageData
                  { url := pageURL, title := title, links := r.1, depth := depth,
                    crawledAt := 0, responseTime := 0, statusCode := statusCode }) := rfl

/-- Every record a crawl call appends carries status 200 and a depth
between the call's depth and the depth bound coded by the fuel. -/
theorem crawl_pages_spec (c : Crawler) (resolve : GoURL → String → Option AbsURL)
    (web : String → FetchOutcome) :
    ∀ (fuel : Nat) (pageURL : String) (depth : Nat) (s : CrawlState),
      ∃ new, (crawl c resolve web fuel pageURL depth s).pages = s.pages ++ new
        ∧ ∀ p ∈ new, p.statusCode = 200 ∧ depth ≤ p.depth ∧ p.depth < depth + fuel := by
  intro fuel
  induction fuel with
  | zero =>
    intro pageURL depth s
    exact ⟨[], by simp [crawl_zero], by simp⟩
  | succ fuel' ih =>
    intro pageURL depth s
    rw [crawl_succ]
    by_cases hv : s.isVisited pageURL = true
    · rw [if_pos hv]
      exact ⟨[], by simp, by simp⟩
    · simp only [Bool.not_eq_true] at hv
      rw [if_neg (by simp [hv])]
      cases hgp : goParse pageURL with
      | error e => exact ⟨[], by simp [markVisited_pages], by simp⟩
      | ok pu =>
        dsimp only
        cases hw : web pageURL with
        | netError => exact ⟨[], by simp [markVisited_pages], by simp⟩
        | response st parsed =>
          dsimp only
          by_cases hst : st ≠ 200
          · rw [if_pos hst]
            exact ⟨[], by simp [markVisited_pages], by simp⟩
          · rw [if_neg hst]
            have hst200 : st = 200 := not_ne_iff.mp hst
            cases parsed with
            | none => exact ⟨[], by simp [markVisited_pages], by simp⟩
            | some tp =>
              obtain ⟨title, hrefs⟩ := tp
              dsimp only
              obtain ⟨new0, hps, hq⟩ := processHrefs_pages c (resolve pu)
                (fun nextURL st => crawl c resolve web fuel' nextURL (depth + 1) st)
                (fun p => p.statusCode = 200 ∧ depth + 1 ≤ p.depth ∧ p.depth < (depth + 1) + fuel')
                (fun u st => ih u (depth + 1) st) hrefs (s.markVisited pageURL)
              refine ⟨new0 ++
                [{ url := pageURL, title := title,
                   links := (processHrefs c (resolve pu)
                       (fun nextURL st => crawl c resolve web fuel' nextURL (depth + 1) st)
                       hrefs (s.markVisited pageURL)).1,
                   depth := depth, crawledAt := 0, responseTime := 0,
                   statusCode := st }], ?_, ?_⟩
              · rw [addPageData_pages, hps, markVisited_pages, List.append_assoc]
              · intro p hp
                rcases List.mem_append.mp hp with h0 | h1
                · obtain ⟨h200, hd1, hd2⟩ := hq p h0
                  exact ⟨h200, by omega, by omega⟩
                · rcases List.mem_singleton.mp h1 with rfl
                  exact ⟨hst200, Nat.le_refl _, by show depth < depth + (fuel' + 1); omega⟩

/-- The visited set only ever grows across a crawl call. -/
theorem crawl_visited_mono (c : Crawler) (resolve : GoURL → String → Option AbsURL)
    (web : String → FetchOutcome) :
    ∀ (fuel : Nat) (pageURL : String) (depth : Nat) (s : CrawlState) (x : String),
      x ∈ s.visited → x ∈ (crawl c resolve web fuel pageURL depth s).visited := by
  intro fuel
  induction fuel with
  | zero => intro pageURL depth s x hx; exact hx
  | succ fuel' ih =>
    intro pageURL depth s x hx
    rw [crawl_succ]
    by_cases hv : s.isVisited pageURL = true
    · rw [if_pos hv]; exact hx
    · simp only [Bool.not_eq_true] at hv
      rw [if_neg (by simp [hv])]
      have hx1 : x ∈ (s.markVisited pageURL).visited := by
        rw [markVisited_visited]; exact List.mem_cons_of_mem _ hx
      cases hgp : goParse pageURL with
      | error e => exact hx1
      | ok pu =>
        dsimp only
        cases hw : web pageURL with
        | netError => exact hx1
        | response st parsed =>
          dsimp only
          by_cases hst : st ≠ 200
          · rw [if_pos hst]; exact hx1
          · rw [if_neg hst]
            cases parsed with
            | none => exact hx1
            | some tp =>
              obtain ⟨title, hrefs⟩ := tp
              dsimp only
              rw [addPageData_visited]
              exact processHrefs_visited c (resolve pu) _
                (fun u st y hy => ih u (depth + 1) st y hy) hrefs _ x hx1

/-- A task whose fetch fails (network error, non-200 status, or body parse
failure) appends no record: the report is exactly as before the task. -/
theorem crawl_failed_fetch (c : Crawler) (resolve : GoURL → String → Option AbsURL)
    (web : String → FetchOutcome) (fuel : Nat) (pageURL : String) (depth : Nat)
    (s : CrawlState) (h : fetchFails (web pageURL) = true) :
    (crawl c resolve web fuel pageURL depth s).pages = s.pages := by
  cases fuel with
  | zero => rfl
  | succ fuel' =>
    rw [crawl_succ]
    by_cases hv : s.isVisited pageURL = true
    · rw [if_pos hv]
    · simp only [Bool.not_eq_true] at hv
      rw [if_neg (by simp [hv])]
      cases hgp : goParse pageURL with
      | error e => exact markVisited_pages s pageURL
      | ok pu =>
        dsimp only
        cases hw : web pageURL with
        | netError => exact markVisited_pages s pageURL
        | response st parsed =>
          dsimp only
          rw [hw] at h
          by_cases hst : st ≠ 200
          · rw [if_pos hst]; exact markVisited_pages s pageURL
          · rw [if_neg hst]
            have hst200 : st = 200 := not_ne_iff.mp hst
            cases parsed with
            | none => exact markVisited_pages s pageURL
            | some tp =>
              exfalso
              subst hst200
              simp [fetchFails] at h

/-- A call with one unit of fuel (depth = maxDepth) appends at most one
record: its children all start past the depth bound and are no-ops. -/
theorem crawl_one_page (c : Crawler) (resolve : GoURL → String → Option AbsURL)
    (web : String → FetchOutcome) (pageURL : String) (depth : Nat) (s : CrawlState) :
    (crawl c resolve web (0 + 1) pageURL depth s).pages = s.pages
    ∨ ∃ d, (crawl c resolve web (0 + 1) pageURL depth s).pages = s.pages ++ [d] := by
  rw [crawl_succ]
  by_cases hv : s.isVisited pageURL = true
  · rw [if_pos hv]; exact Or.inl rfl
  · simp only [Bool.not_eq_true] at hv
    rw [if_neg (by simp [hv])]
    cases hgp : goParse pageURL with
    | error e => exact Or.inl (markVisited_pages s pageURL)
    | ok pu =>
      dsimp only
      cases hw : web pageURL with
      | netError => exact Or.inl (markVisited_pages s pageURL)
      | response st parsed =>
        dsimp only
        by_cases hst : st ≠ 200
        · rw [if_pos hst]; exact Or.inl (markVisited_pages s pageURL)
        · rw [if_neg hst]
          cases parsed with
          | none => exact Or.inl (markVisited_pages s pageURL)
          | some tp =>
            obtain ⟨title, hrefs⟩ := tp
            dsimp only
            rw [processHrefs_state_id c (resolve pu)
              (fun nextURL st => crawl c resolve web 0 nextURL (depth + 1) st)
              (fun u st => rfl) hrefs (s.markVisited pageURL)]
            refine Or.inr
              ⟨{ url := pageURL, title := title,
                 links := (processHrefs c (resolve pu)
                     (fun nextURL st => crawl c resolve web 0 nextURL (depth + 1) st)
                     hrefs (s.markVisited pageURL)).1,
                 depth := depth, crawledAt := 0, responseTime := 0,
                 statusCode := st }, ?_⟩
            rw [addPageData_pages, markVisited_pages]

/-- A finished task never changes the shared state again. -/
theorem runTask_finished (n : Nat) (s : RaceState) :
    runTask n s TaskPc.finished = s := by
  cases n with
  | zero => rfl
  | succ m => rfl

/-- C1: the source's visitation claim is not atomic.  The visited check
and the mark-visited write are separate critical sections, so under the
interleaving in which both tasks pass the check before either marks, the
same URL is fetched twice; a serialized schedule fetches it once.  This
contradicts the claim that among concurrent claims on one URL exactly one
succeeds and the URL is never fetched more than once per run. -/
theorem C1_duplicate_fetch_race :
    (runSchedule [false, true, false, false, false, true, true, true]
      raceInit).shared.fetches = 2
    ∧ (runSchedule [false, false, false, false, true] raceInit).shared.fetches = 1 :=
  ⟨by decide, by decide⟩

/-- C3 counterexample: in the executed statement order of a task claiming
a fresh URL, the mark-visited write does not precede the rate-limiter
wait (the trace is check, tick, mark, fetch), refuting the claim that the
whole visitation claim happens before the task blocks on the limiter. -/
theorem C3_mark_not_before_tick :
    ¬ ((taskTrace 10 { visited := false, ticksConsumed := 0, fetches := 0 }
        TaskPc.checkVisited).indexOf TaskPc.markVisited
      < (taskTrace 10 { visited := false, ticksConsumed := 0, fetches := 0 }
        TaskPc.checkVisited).indexOf TaskPc.waitTick) := by decide

/-- C3 amended: only the already-visited check precedes the rate-limiter
wait; the mark-visited write happens after the wait.  A task that finds
its URL already visited therefore terminates before the wait and consumes
no rate-limiter tick. -/
theorem C3_check_before_tick_mark_after :
    (taskTrace 10 { visited := false, ticksConsumed := 0, fetches := 0 }
        TaskPc.checkVisited
      = [TaskPc.checkVisited, TaskPc.waitTick, TaskPc.markVisited, TaskPc.fetchPage])
    ∧ (∀ (n t f : Nat),
        (runTask n { visited := true, ticksConsumed := t, fetches := f }
          TaskPc.checkVisited).ticksConsumed = t) := by
  refine ⟨by decide, ?_⟩
  intro n t f
  cases n with
  | zero => rfl
  | succ m =>
    exact congrArg RaceState.ticksConsumed
      (runTask_finished m { visited := true, ticksConsumed := t, fetches := f })

/-- C7 counterexample: with requestsPerSecond = 3 the coded tick period is
333 ms, not exactly 1000/3 ms: the quotient is truncated by the conversion
to time.Duration before the multiplication by time.Millisecond. -/
theorem C7_period_truncated :
    tickPeriodMs 3 = 333 ∧ ((tickPeriodMs 3 : ℚ) ≠ (1000 : ℚ) / 3) := by
  constructor
  · norm_num [tickPeriodMs]
  · norm_num [tickPeriodMs]

/-- C7 amended: for every requestsPerSecond > 0 the coded tick period is
the floor of 1000/requestsPerSecond milliseconds: at most the exact
quotient and within one millisecond below it. -/
theorem C7_period_floor (r : ℚ) (_h : 0 < r) :
    (tickPeriodMs r : ℚ) ≤ (1000 : ℚ) / r
    ∧ (1000 : ℚ) / r < tickPeriodMs r + 1 :=
  ⟨Int.floor_le _, Int.lt_floor_add_one _⟩

/-- C7 witness: the floor bounds instantiated at requestsPerSecond = 3. -/
theorem C7_period_floor_witness :
    (0 : ℚ) < 3
    ∧ ((tickPeriodMs 3 : ℚ) ≤ (1000 : ℚ) / 3
      ∧ (1000 : ℚ) / 3 < tickPeriodMs 3 + 1) :=
  ⟨by norm_num, C7_period_floor 3 (by norm_num)⟩

/-- C8: after finalization the report's total equals the length of its
pages, and when the finalization clock is at or after the construction
clock (clocks are monotone) the end time is at or after the start time. -/
theorem C8_report_integrity (r : CrawlResult) (now : Nat) (h : r.startTime ≤ now) :
    (saveResults r now).totalPages = (saveResults r now).pages.length
    ∧ (saveResults r now).startTime ≤ (saveResults r now).endTime :=
  ⟨rfl, h⟩

/-- C8 witness: a report built at clock 5 and finalized at clock 9. -/
theorem C8_report_integrity_witness :
    (initResult ("http://e.com/a") 3 5).startTime ≤ 9
    ∧ ((saveResults (initResult ("http://e.com/a") 3 5) 9).totalPages
        = (saveResults (initResult ("http://e.com/a") 3 5) 9).pages.length
      ∧ (saveResults (initResult ("http://e.com/a") 3 5) 9).startTime
        ≤ (saveResults (initResult ("http://e.com/a") 3 5) 9).endTime) :=
  ⟨by decide, C8_report_integrity (initResult ("http://e.com/a") 3 5) 9 (by decide)⟩

/-- C9 counterexample: the seed "hello" parses (as a relative reference)
but is not an absolute URL, yet NewCrawler constructs a crawler for it:
the source validates parseability only, never absoluteness. -/
theorem C9_relative_seed_accepted :
    NewCrawler ("hello") 3
      = Except.ok { base := { scheme := "", host := "", raw := "hello" },
                    maxDepth := 3 }
    ∧ GoURL.isAbs { scheme := "", host := "", raw := "hello" } = false :=
  ⟨by decide, by decide⟩

/-- C9 amended: construction fails fast exactly on unparseable seeds, with
the descriptive "invalid base URL" error, and every parseable seed
(absolute or not) yields a constructed crawler around the parse result. -/
theorem C9_parse_only_validation (s : String) (d : Nat) :
    (∀ e, goParse s = Except.error e →
      NewCrawler s d = Except.error (("invalid base URL: ") ++ e))
    ∧ (∀ u, goParse s = Except.ok u →
      NewCrawler s d = Except.ok { base := u, maxDepth := d }) := by
  constructor
  · intro e he
    simp [NewCrawler, he]
  · intro u hu
    simp [NewCrawler, hu]

/-- C9 witness: a seed with a control character is rejected with the
descriptive error; the relative seed "hello" is accepted. -/
theorem C9_parse_only_validation_witness :
    NewCrawler ("\x00") 3
      = Except.error (("invalid base URL: ")
          ++ ("net/url: invalid control character in URL"))
    ∧ NewCrawler ("hello") 7
      = Except.ok { base := { scheme := "", host := "", raw := "hello" },
                    maxDepth := 7 } :=
  ⟨(C9_parse_only_validation ("\x00") 3).1 _ (by decide),
   (C9_parse_only_validation ("hello") 7).2
     { scheme := "", host := "", raw := "hello" } (by decide)⟩

/-- C2 counterexample: the seed page of webOut links to the out-of-scope
URL http://other.com/x, which is discovered and resolvable, yet no record
of the run carries it in its links list: the source drops out-of-scope
links before appending to links. -/
theorem C2_out_link_dropped :
    ((startCrawl cEx resolveEx webOut).pages.all
      (fun p => !(p.links.contains ("http://other.com/x")))) = true
    ∧ resolveEx exBase ("http://other.com/x")
      = some { host := "other.com", full := "http://other.com/x" } :=
  ⟨by decide, by decide⟩

/-- C2 amended: the links list recorded for a page contains exactly the
discovered hrefs that pass the skip rules, resolve, and are in scope, in
discovery order; out-of-scope links are neither recorded nor crawled. -/
theorem C2_links_in_scope_only (c : Crawler) (resolve1 : String → Option AbsURL)
    (spawn : String → CrawlState → CrawlState) (hrefs : List String) (s : CrawlState) :
    (processHrefs c resolve1 spawn hrefs s).1
      = hrefs.filterMap (fun h => Option.map AbsURL.full (processHref c resolve1 h)) :=
  processHrefs_fst c resolve1 spawn hrefs s

/-- C6: the visited set grows monotonically across a crawl call; a URL
already visited is never re-entered (the call returns with the state
unchanged); and the concrete cyclic site webCyc (a links to b, b links
back to a) terminates with exactly one record per page. -/
theorem C6_termination (c : Crawler) (resolve : GoURL → String → Option AbsURL)
    (web : String → FetchOutcome) (fuel : Nat) (pageURL : String) (depth : Nat)
    (s : CrawlState) :
    (∀ x ∈ s.visited, x ∈ (crawl c resolve web fuel pageURL depth s).visited)
    ∧ (s.isVisited pageURL = true → crawl c resolve web fuel pageURL depth s = s)
    ∧ ((startCrawl cEx resolveEx webCyc).pages.map PageData.url
        = [("http://e.com/b"), ("http://e.com/a")]) :=
  ⟨fun x hx => crawl_visited_mono c resolve web fuel pageURL depth s x hx,
   fun h => crawl_visited c resolve web fuel pageURL depth s h,
   by decide⟩

/-- C6 witness: monotonicity and the visited no-op instantiated on the
cyclic site. -/
theorem C6_termination_witness :
    ("u") ∈ (crawl cEx resolveEx webCyc 2 ("http://e.com/a") 0
      { visited := [("u")], pages := [] }).visited
    ∧ crawl cEx resolveEx webCyc 2 ("http://e.com/a") 0
        { visited := [("http://e.com/a")], pages := [] }
      = { visited := [("http://e.com/a")], pages := [] } :=
  ⟨(C6_termination cEx resolveEx webCyc 2 ("http://e.com/a") 0
      { visited := [("u")], pages := [] }).1 ("u") (by decide),
   (C6_termination cEx resolveEx webCyc 2 ("http://e.com/a") 0
      { visited := [("http://e.com/a")], pages := [] }).2.1 (by decide)⟩

/-- C4: no record of a run exceeds the configured maxDepth; a crawl call
past the depth bound (fuel 0, i.e. depth > maxDepth) is a no-op; and with
maxDepth = 0 a run produces at most one record (the seed page, when its
fetch succeeds). -/
theorem C4_depth_bound (c : Crawler) (resolve : GoURL → String → Option AbsURL)
    (web : String → FetchOutcome) :
    (∀ p ∈ (startCrawl c resolve web).pages, p.depth ≤ c.maxDepth)
    ∧ (∀ (pageURL : String) (depth : Nat) (s : CrawlState),
        crawl c resolve web 0 pageURL depth s = s)
    ∧ (c.maxDepth = 0 → (startCrawl c resolve web).pages.length ≤ 1) := by
  refine ⟨?_, fun pageURL depth s => rfl, ?_⟩
  · intro p hp
    simp only [startCrawl] at hp
    obtain ⟨new, hps, hq⟩ := crawl_pages_spec c resolve web (c.maxDepth + 1)
      c.base.raw 0 { visited := [], pages := [] }
    rw [hps] at hp
    simp only [List.nil_append] at hp
    obtain ⟨h200, hd1, hd2⟩ := hq p hp
    omega
  · intro h0
    simp only [startCrawl, h0]
    rcases crawl_one_page c resolve web c.base.raw 0 { visited := [], pages := [] }
      with h | ⟨d, hd⟩
    · rw [h]
      simp
    · rw [hd]
      simp

/-- C4 witness: on the cyclic site with maxDepth = 0, the single record is
the seed at depth 0, and the run length bound holds. -/
theorem C4_depth_bound_witness :
    ({ url := "http://e.com/a", title := "A", links := [("http://e.com/b")],
       depth := 0, crawledAt := 0, responseTime := 0,
       statusCode := 200 } : PageData).depth ≤ cEx0.maxDepth
    ∧ (startCrawl cEx0 resolveEx webCyc).pages.length ≤ 1 :=
  ⟨(C4_depth_bound cEx0 resolveEx webCyc).1 _ (by decide),
   (C4_depth_bound cEx0 resolveEx webCyc).2.2 rfl⟩

/-- C5: starting from a report whose records all have status 200, every
record after any crawl call still has status 200 (in particular every
record of a run from the empty report), and a task whose fetch fails
(network error, non-200 status, or body parse failure) appends nothing:
the aggregated pages are exactly as before the task. -/
theorem C5_only_200_recorded (c : Crawler) (resolve : GoURL → String → Option AbsURL)
    (web : String → FetchOutcome) (fuel : Nat) (pageURL : String) (depth : Nat)
    (s : CrawlState) :
    ((∀ p ∈ s.pages, p.statusCode = 200)
      → ∀ p ∈ (crawl c resolve web fuel pageURL depth s).pages, p.statusCode = 200)
    ∧ (fetchFails (web pageURL) = true
      → (crawl c resolve web fuel pageURL depth s).pages = s.pages) := by
  constructor
  · intro hall p hp
    obtain ⟨new, hps, hq⟩ := crawl_pages_spec c resolve web fuel pageURL depth s
    rw [hps] at hp
    rcases List.mem_append.mp hp with h | h
    · exact hall p h
    · exact (hq p h).1
  · exact crawl_failed_fetch c resolve web fuel pageURL depth s

/-- C5 witness: the record of page b in the cyclic run has status 200, and
a run against a web that always fails with a network error records
nothing. -/
theorem C5_only_200_recorded_witness :
    ({ url := "http://e.com/b", title := "B", links := [("http://e.com/a")],
       depth := 1, crawledAt := 0, responseTime := 0,
       statusCode := 200 } : PageData).statusCode = 200
    ∧ (crawl cEx resolveEx (fun _ => FetchOutcome.netError) 4 ("http://e.com/a") 0
        { visited := [], pages := [] }).pages = [] :=
  ⟨(C5_only_200_recorded cEx resolveEx webCyc 4 ("http://e.com/a") 0
      { visited := [], pages := [] }).1 (by simp) _ (by decide),
   (C5_only_200_recorded cEx resolveEx (fun _ => FetchOutcome.netError) 4
      ("http://e.com/a") 0 { visited := [], pages := [] }).2 (by decide)⟩

/-- Unfolding of the href loop when the head href resolves in scope. -/
theorem processHrefs_cons_some (c : Crawler) (resolve1 : String → Option AbsURL)
    (spawn : String → CrawlState → CrawlState) (href0 : String) (rest : List String)
    (s : CrawlState) (u : AbsURL) (hp : processHref c resolve1 href0 = some u) :
    processHrefs c resolve1 spawn (href0 :: rest) s =
      (u.full :: (processHrefs c resolve1 spawn rest
          (if s.isVisited u.full then s else spawn u.full s)).1,
        (processHrefs c resolve1 spawn rest
          (if s.isVisited u.full then s else spawn u.full s)).2) := by
  simp only [processHrefs]
  rw [hp]

/-- A crawl of an unvisited URL whose page carries no links marks the URL
and appends exactly its record. -/
theorem crawl_leaf (c : Crawler) (resolve : GoURL → String → Option AbsURL)
    (web : String → FetchOutcome) (fuel : Nat) (pageURL : String) (depth : Nat)
    (s : CrawlState) (g : GoURL) (t : String)
    (hv : s.isVisited pageURL = false)
    (hg : goParse pageURL = Except.ok g)
    (hw : web pageURL = FetchOutcome.response 200 (some (t, []))) :
    crawl c resolve web (fuel + 1) pageURL depth s =
      { visited := pageURL :: s.visited,
        pages := s.pages ++
          [{ url := pageURL, title := t, links := [], depth := depth,
             crawledAt := 0, responseTime := 0, statusCode := 200 }] } := by
  rw [crawl_succ, if_neg (by simp [hv]), hg, hw]
  rfl

/-- C10: deduplication is keyed on the exact resolved URL string.  When
the seed page carries two hrefs that pass the skip rules (any href not
consisting solely of a fragment does), resolve in scope to distinct full
strings (differing only in query string or trailing fragment included),
and are distinct from the seed, then both are separately claimed and
fetched: the run produces one record for each. -/
theorem C10_dedup_exact_string (c : Crawler) (resolve : GoURL → String → Option AbsURL)
    (web : String → FetchOutcome) (fuel : Nat) (seedURL : String) (pu g1 g2 : GoURL)
    (h1 h2 t0 t1 t2 : String) (u1 u2 : AbsURL)
    (hgp : goParse seedURL = Except.ok pu)
    (hweb : web seedURL = FetchOutcome.response 200 (some (t0, [h1, h2])))
    (hp1 : processHref c (resolve pu) h1 = some u1)
    (hp2 : processHref c (resolve pu) h2 = some u2)
    (hne : u1.full ≠ u2.full)
    (hs1 : u1.full ≠ seedURL) (hs2 : u2.full ≠ seedURL)
    (hg1 : goParse u1.full = Except.ok g1)
    (hg2 : goParse u2.full = Except.ok g2)
    (hw1 : web u1.full = FetchOutcome.response 200 (some (t1, [])))
    (hw2 : web u2.full = FetchOutcome.response 200 (some (t2, []))) :
    ((crawl c resolve web (fuel + 2) seedURL 0
        { visited := [], pages := [] }).pages.map PageData.url)
      = [u1.full, u2.full, seedURL] := by
  have hv1 : CrawlState.isVisited { visited := [seedURL], pages := [] } u1.full
      = false := by
    simp [CrawlState.isVisited, hs1]
  have hchild1 : crawl c resolve web (fuel + 1) u1.full 1
      { visited := [seedURL], pages := [] }
      = { visited := [u1.full, seedURL],
          pages := [{ url := u1.full, title := t1, links := [], depth := 1,
                      crawledAt := 0, responseTime := 0, statusCode := 200 }] } :=
    crawl_leaf c resolve web fuel u1.full 1 { visited := [seedURL], pages := [] }
      g1 t1 hv1 hg1 hw1
  have hv2 : CrawlState.isVisited
      { visited := [u1.full, seedURL],
        pages := [{ url := u1.full, title := t1, links := [], depth := 1,
                    crawledAt := 0, responseTime := 0, statusCode := 200 }] }
      u2.full = false := by
    simp [CrawlState.isVisited, hs2, Ne.symm hne]
  have hchild2 : crawl c resolve web (fuel + 1) u2.full 1
      { visited := [u1.full, seedURL],
        pages := [{ url := u1.full, title := t1, links := [], depth := 1,
                    crawledAt := 0, responseTime := 0, statusCode := 200 }] }
      = { visited := [u2.full, u1.full, seedURL],
          pages := [{ url := u1.full, title := t1, links := [], depth := 1,
                      crawledAt := 0, responseTime := 0, statusCode := 200 },
                    { url := u2.full, title := t2, links := [], depth := 1,
                      crawledAt := 0, responseTime := 0, statusCode := 200 }] } :=
    crawl_leaf c resolve web fuel u2.full 1 _ g2 t2 hv2 hg2 hw2
  have e1 : processHrefs c (resolve pu)
      (fun nextURL st => crawl c resolve web (fuel + 1) nextURL 1 st)
      [h1, h2] { visited := [seedURL], pages := [] }
      = ([u1.full, u2.full],
         { visited := [u2.full, u1.full, seedURL],
           pages := [{ url := u1.full, title := t1, links := [], depth := 1,
                       crawledAt := 0, responseTime := 0, statusCode := 200 },
                     { url := u2.full, title := t2, links := [], depth := 1,
                       crawledAt := 0, responseTime := 0, statusCode := 200 }] }) := by
    rw [processHrefs_cons_some c (resolve pu)
        (fun nextURL st => crawl c resolve web (fuel + 1) nextURL 1 st)
        h1 [h2] { visited := [seedURL], pages := [] } u1 hp1,
      if_neg (by simp [hv1])]
    rw [hchild1]
    rw [processHrefs_cons_some c (resolve pu)
        (fun nextURL st => crawl c resolve web (fuel + 1) nextURL 1 st)
        h2 []
        { visited := [u1.full, seedURL],
          pages := [{ url := u1.full, title := t1, links := [], depth := 1,
                      crawledAt := 0, responseTime := 0, statusCode := 200 }] }
        u2 hp2,
      if_neg (by simp [hv2])]
    rw [hchild2]
    rfl
  show ((crawl c resolve web ((fuel + 1) + 1) seedURL 0
      { visited := [], pages := [] }).pages.map PageData.url) = _
  rw [crawl_succ, if_neg (by simp [CrawlState.isVisited]), hgp, hweb]
  show ((processHrefs c (resolve pu)
      (fun nextURL st => crawl c resolve web (fuel + 1) nextURL 1 st)
      [h1, h2] { visited := [seedURL], pages := [] }).2.addPageData
      { url := seedURL, title := t0,
        links := (processHrefs c (resolve pu)
            (fun nextURL st => crawl c resolve web (fuel + 1) nextURL 1 st)
            [h1, h2] { visited := [seedURL], pages := [] }).1,
        depth := 0, crawledAt := 0, responseTime := 0,
        statusCode := 200 }).pages.map PageData.url = [u1.full, u2.full, seedURL]
  rw [e1]
  rfl

/-- C10 witness: hrefs /page?a=1 and /page#sec on the seed's host resolve
to full URL strings that differ only in query string or fragment; both
pass the skip rules (the second contains a fragment but is not
fragment-only), and the run fetches each of them exactly once. -/
theorem C10_dedup_exact_string_witness :
    processHref cEx
        (resolveEx { scheme := "http", host := "e.com", raw := "http://e.com/a" })
        ("/page?a=1") = some { host := "e.com", full := "http://e.com/page?a=1" }
    ∧ processHref cEx
        (resolveEx { scheme := "http", host := "e.com", raw := "http://e.com/a" })
        ("/page#sec") = some { host := "e.com", full := "http://e.com/page#sec" }
    ∧ (({ host := "e.com", full := "http://e.com/page?a=1" } : AbsURL).full
        ≠ ({ host := "e.com", full := "http://e.com/page#sec" } : AbsURL).full)
    ∧ ((crawl cEx resolveEx webQF (2 + 2) ("http://e.com/a") 0
        { visited := [], pages := [] }).pages.map PageData.url)
      = [("http://e.com/page?a=1"), ("http://e.com/page#sec"), ("http://e.com/a")] :=
  ⟨by decide, by decide, by decide,
   C10_dedup_exact_string cEx resolveEx webQF 2 ("http://e.com/a")
     { scheme := "http", host := "e.com", raw := "http://e.com/a" }
     { scheme := "http", host := "e.com", raw := "http://e.com/page?a=1" }
     { scheme := "http", host := "e.com", raw := "http://e.com/page#sec" }
     ("/page?a=1") ("/page#sec") ("A") ("Q1") ("PS")
     { host := "e.com", full := "http://e.com/page?a=1" }
     { host := "e.com", full := "http://e.com/page#sec" }
     (by decide) (by decide) (by decide) (by decide) (by decide) (by decide)
     (by decide) (by decide) (by decide) (by decide) (by decide)⟩
